import Mathlib

/-!
Verification of `pprofiler` (src/pprofiler.py) against its specification.

The development shallowly embeds the profile-control and state-reconciliation
core of the program: the command bridge (`parser`), the `PowerCtl` operations
(`get_profiles`, `get_active_profile`, `set_profile`), and the polling loop
(`MainApp.on_timer` / `SystrayIcon.update_icon`).  Python strings are modelled
as Lean `String`/`List Char`; the external process is modelled by an abstract
outcome (`ProcOutcome`): either a timeout or a normal completion carrying the
exit code and the captured stdout text.
-/

namespace PProfiler

/-- Python whitespace as tested by `str.strip()` for the ASCII range:
space, tab, newline, carriage return, vertical tab, form feed. -/
def pyIsSpaceB (c : Char) : Bool :=
  c == ' ' || c == '\t' || c == '\n' || c == '\r' || c == Char.ofNat 11 || c == Char.ofNat 12

/-- `str.strip()` on the character list: drop whitespace from the front,
then from the back (via reverse). -/
def pyStripList (l : List Char) : List Char :=
  ((l.dropWhile pyIsSpaceB).reverse.dropWhile pyIsSpaceB).reverse

/-- Python `str.strip()`: remove leading and trailing whitespace. -/
def pyStrip (s : String) : String :=
  String.mk (pyStripList s.toList)

/-- Python `str.splitlines()`: split on `\n`, `\r\n` and `\r`; a trailing
line break does not produce a final empty line, and `""` gives `[]`. -/
def pySplitlinesGo : List Char → List Char → List String
  | [], acc => if acc = [] then [] else [String.mk acc.reverse]
  | '\r' :: '\n' :: rest, acc => String.mk acc.reverse :: pySplitlinesGo rest []
  | '\n' :: rest, acc => String.mk acc.reverse :: pySplitlinesGo rest []
  | '\r' :: rest, acc => String.mk acc.reverse :: pySplitlinesGo rest []
  | c :: rest, acc => pySplitlinesGo rest (c :: acc)

def pySplitlines (s : String) : List String :=
  pySplitlinesGo s.toList []

/-- Python `line.replace(c, '')` for a one-character pattern: delete every
occurrence of `c`. -/
def delChar (c : Char) (s : String) : String :=
  String.mk (s.toList.filter (fun a => a != c))

/-- Outcome of launching the external process, as observed by `parser`:
`subprocess` either raises `TimeoutExpired` or completes with a return code
and the captured stdout text (stderr is discarded by the code). -/
inductive ProcOutcome where
  | timeout : ProcOutcome
  | completed (returncode : Int) (stdout : String) : ProcOutcome
deriving DecidableEq

/-- The dictionary built by `parser` (src/pprofiler.py:110-123).
Python stores `error.code` as the decimal string `str(proc.returncode)` and
only ever compares it against `'0'`; it is modelled as the integer return
code, with `errorCode = 0` standing for the string `'0'`. -/
structure CmdResult where
  errorCode : Int
  output : List String
deriving DecidableEq

/-- `parser` (src/pprofiler.py:110-123), given the process outcome:
on normal completion, `error.code = str(proc.returncode)` and
`output = [line.strip() for line in stdout.splitlines()]`;
on `TimeoutExpired`, `error.code = '1'` and `output = []`. -/
def parserRun (outcome : ProcOutcome) : CmdResult :=
  match outcome with
  | .timeout => { errorCode := 1, output := [] }
  | .completed rc stdout =>
      { errorCode := rc, output := (pySplitlines stdout).map pyStrip }

/-- `CONF['powerprofilesctl.excluded.lines']` (src/pprofiler.py:46-50). -/
def excludedLines : List String :=
  ["CpuDriver:", "Degraded:", "PlatformDriver:"]

/-- `needle.isPrefixOf hay || ...` over successive tails: Python's
substring test `needle in hay` on character lists. -/
def containsSub (needle : List Char) : List Char → Bool
  | [] => needle.isEmpty
  | c :: rest => needle.isPrefixOf (c :: rest) || containsSub needle rest

/-- Python `x in line` (substring containment). -/
def strContains (hay needle : String) : Bool :=
  containsSub needle.toList hay.toList

/-- The per-line cleaning step of `PowerCtl.get_profiles`
(src/pprofiler.py:145): `line.replace('*', '').replace(':', '').strip()`. -/
def cleanLine (line : String) : String :=
  pyStrip (delChar ':' (delChar '*' line))

/-- Result dictionary of `PowerCtl.get_profiles` (src/pprofiler.py:142-149). -/
structure ProfilesResult where
  errorCode : Int
  profiles : List String
deriving DecidableEq

/-- `PowerCtl.get_profiles` (src/pprofiler.py:134-149), applied to the parsed
result of the `list` command: keep the lines that are non-empty (Python
truthiness of `line`) and contain none of the excluded markers, then clean
each surviving line. -/
def get_profiles (parsed : CmdResult) : ProfilesResult :=
  { errorCode := parsed.errorCode,
    profiles :=
      (parsed.output.filter
        (fun line => line != "" && !(excludedLines.any (fun x => strContains line x)))).map
        cleanLine }

/-- Result dictionary of `PowerCtl.get_active_profile`
(src/pprofiler.py:168-171). -/
structure ActiveResult where
  errorCode : Int
  profile : String
deriving DecidableEq

/-- `PowerCtl.get_active_profile` (src/pprofiler.py:161-171), applied to the
parsed result of the `get` command:
`profile = next((line for line in parsed['output'] if line), '')`. -/
def get_active_profile (parsed : CmdResult) : ActiveResult :=
  { errorCode := parsed.errorCode,
    profile := (parsed.output.find? (fun line => line != "")).getD "" }

/-- Cleaning as the specification's words describe it, for comparison with
`cleanLine`: remove surrounding whitespace, one leading `*` (the marker of the
current profile) and one trailing `:`; every other character is kept. -/
def specCleanList (l : List Char) : List Char :=
  let l1 := pyStripList l
  let l2 := match l1 with
    | '*' :: rest => rest
    | _ => l1
  match l2.reverse with
  | ':' :: rest => rest.reverse
  | _ => l2

def specCleanLine (line : String) : String :=
  String.mk (specCleanList line.toList)

/-! ## The polling loop (`MainApp` / `SystrayIcon`)

Mutable program state touched by a timer tick: `CONF['system.theme']`,
`CONF['system.theme.force']` and `SystrayIcon.current_profile`.  The
observable UI effects of a tick are modelled as events: `iconsReloaded` for
`MainApp.set_icons()` (the theme-dependent icon reload) and `setIcon tooltip`
for `SystrayIcon.SetIcon(icon, tooltip)`. -/

structure AppState where
  systemTheme : String
  themeForce : Bool
  currentProfile : String
deriving DecidableEq

inductive Event where
  | iconsReloaded : Event
  | setIcon (tooltip : String) : Event
deriving DecidableEq

/-- `MainApp.set_theme_style` (src/pprofiler.py:254-256), with the OS
appearance query `wx.SystemSettings.GetAppearance().IsDark()` supplied as
`osIsDark`. -/
def set_theme_style (osIsDark : Bool) (st : AppState) : AppState :=
  if !st.themeForce then
    { st with systemTheme := if osIsDark then "dark" else "light" }
  else st

/-- `MainApp.os_theme_style_changed` (src/pprofiler.py:258-266): returns
`CONF['system.theme'] == cur_theme`, i.e. `true` when the stored theme EQUALS
the theme queried this tick. -/
def os_theme_style_changed (osIsDark : Bool) (st : AppState) : Bool :=
  st.systemTheme == (if osIsDark then "dark" else "light")

/-- `SystrayIcon.update_icon` (src/pprofiler.py:186-191), with the outcome of
the `get` command supplied as `getOutcome`.  The icon handle looked up from
`CONF['systray.icon.state']` is presentation plumbing; the observable effect
is the `SetIcon` call with its tooltip `'Active Profile: ' + active_profile`.
The error code of the command is never consulted. -/
def update_icon (getOutcome : ProcOutcome) (st : AppState) : AppState × List Event :=
  let active := (get_active_profile (parserRun getOutcome)).profile
  if active ≠ st.currentProfile then
    ({ st with currentProfile := active }, [Event.setIcon ("Active Profile: " ++ active)])
  else (st, [])

/-- `MainApp.on_timer` (src/pprofiler.py:279-283): one poll tick.  If
`os_theme_style_changed()` then `set_theme_style(); set_icons()`; afterwards
`systray.update_icon()`. -/
def on_timer (osIsDark : Bool) (getOutcome : ProcOutcome) (st : AppState) :
    AppState × List Event :=
  let themed :=
    if os_theme_style_changed osIsDark st then
      (set_theme_style osIsDark st, [Event.iconsReloaded])
    else (st, [])
  let updated := update_icon getOutcome themed.1
  (updated.1, themed.2 ++ updated.2)

/-! ## `shlex.split` and `PowerCtl.set_profile`

`parser` splits its command line with `shlex.split` (POSIX mode) before
launching the process.  The state machine below follows `shlex.read_token`
for `whitespace_split=True`: whitespace separates tokens, a backslash outside
quotes escapes the next character, single quotes are fully literal, inside
double quotes a backslash escapes only `"` and `\`.  An unterminated quote or
a trailing escape raises `ValueError`, modelled as `none`. -/

def bslashChar : Char := Char.ofNat 92
def squoteChar : Char := Char.ofNat 39
def dquoteChar : Char := Char.ofNat 34

/-- `shlex.whitespace` is the four characters space, tab, CR, LF. -/
def shlexWhitespaceB (c : Char) : Bool :=
  c == ' ' || c == '\t' || c == '\r' || c == '\n'

inductive ShlexState where
  | norm | esc | singleQ | doubleQ | doubleEsc
deriving DecidableEq

def shlexGo (toks : List String) (st : ShlexState) (acc : List Char) (hasTok : Bool) :
    List Char → Option (List String)
  | [] =>
    match st with
    | .norm => some (toks ++ (if hasTok then [String.mk acc.reverse] else []))
    | _ => none
  | c :: rest =>
    match st with
    | .norm =>
      if shlexWhitespaceB c then
        if hasTok then shlexGo (toks ++ [String.mk acc.reverse]) .norm [] false rest
        else shlexGo toks .norm [] false rest
      else if c == bslashChar then shlexGo toks .esc acc hasTok rest
      else if c == squoteChar then shlexGo toks .singleQ acc true rest
      else if c == dquoteChar then shlexGo toks .doubleQ acc true rest
      else shlexGo toks .norm (c :: acc) true rest
    | .esc => shlexGo toks .norm (c :: acc) true rest
    | .singleQ =>
      if c == squoteChar then shlexGo toks .norm acc hasTok rest
      else shlexGo toks .singleQ (c :: acc) hasTok rest
    | .doubleQ =>
      if c == dquoteChar then shlexGo toks .norm acc hasTok rest
      else if c == bslashChar then shlexGo toks .doubleEsc acc hasTok rest
      else shlexGo toks .doubleQ (c :: acc) hasTok rest
    | .doubleEsc =>
      if c == dquoteChar || c == bslashChar then shlexGo toks .doubleQ (c :: acc) true rest
      else shlexGo toks .doubleQ (c :: bslashChar :: acc) true rest

/-- Python `shlex.split(command)` (POSIX, `whitespace_split=True`);
`none` models the `ValueError` raised on malformed input. -/
def shlexSplit (s : String) : Option (List String) :=
  shlexGo [] .norm [] false s.toList

/-- `CONF['powerprofilesctl']` (src/pprofiler.py:45). -/
def powerprofilesctlPath : String := "/usr/bin/powerprofilesctl"

/-- The f-string of `PowerCtl.set_profile` (src/pprofiler.py:159):
`f'{self.command} {CONF["powerprofilesctl.cmds"]["set"]} {profile}'`. -/
def setCmdLine (profile : String) : String :=
  powerprofilesctlPath ++ " " ++ "set" ++ " " ++ profile

/-- `parser` (src/pprofiler.py:110-123) from the command string: shlex-split
it into the exec vector, launch (abstracted as `exec`), classify the outcome.
`none` models the uncaught `ValueError` from `shlex.split`. -/
def parserFull (exec : List String → ProcOutcome) (command : String) :
    Option CmdResult :=
  (shlexSplit command).map (fun argv => parserRun (exec argv))

/-- `PowerCtl.set_profile` (src/pprofiler.py:151-159):
`parser(f'{command} set {profile}')['error.code'] == '0'`. -/
def set_profile (exec : List String → ProcOutcome) (profile : String) : Option Bool :=
  (parserFull exec (setCmdLine profile)).map (fun r => r.errorCode == 0)

/-- A character that `shlex` gives no special meaning: not whitespace, not
the escape character, not a quote. -/
def shlexSafeB (c : Char) : Bool :=
  !(shlexWhitespaceB c) && c != bslashChar && c != squoteChar && c != dquoteChar

/-! ## Helper lemmas -/

theorem stringEqOfData {a b : String} (h : a.toList = b.toList) : a = b := by
  cases a
  cases b
  exact congrArg String.mk h

theorem pyStripList_sublist (l : List Char) : List.Sublist (pyStripList l) l := by
  unfold pyStripList
  have h2 : List.Sublist ((l.dropWhile pyIsSpaceB).reverse.dropWhile pyIsSpaceB)
      (l.dropWhile pyIsSpaceB).reverse := List.dropWhile_sublist _
  have h3 := h2.reverse
  rw [List.reverse_reverse] at h3
  exact h3.trans (List.dropWhile_sublist _)

theorem mem_pyStripList {c : Char} {l : List Char} (h : c ∈ pyStripList l) : c ∈ l :=
  (pyStripList_sublist l).subset h

/-- The character list of `cleanLine line`: strip after deleting every `*`
and then every `:`. -/
theorem cleanLine_toList (line : String) :
    (cleanLine line).toList
      = pyStripList ((line.toList.filter (fun c => c != '*')).filter (fun c => c != ':')) :=
  rfl

theorem mem_cleanLine_ne {c : Char} {line : String}
    (h : c ∈ (cleanLine line).toList) : c ≠ '*' ∧ c ≠ ':' := by
  rw [cleanLine_toList] at h
  have h1 := mem_pyStripList h
  have h2 := List.mem_filter.mp h1
  have h3 := List.mem_filter.mp h2.1
  refine ⟨?_, ?_⟩
  · simpa using h3.2
  · simpa using h2.2

theorem isPrefixOf_mem {c : Char} :
    ∀ {needle hay : List Char}, needle.isPrefixOf hay = true → c ∈ needle → c ∈ hay := by
  intro needle
  induction needle with
  | nil => intro hay _ hc; exact absurd hc (List.not_mem_nil c)
  | cons a as ih =>
    intro hay hpre hc
    cases hay with
    | nil => simp [List.isPrefixOf] at hpre
    | cons b bs =>
      simp only [List.isPrefixOf, Bool.and_eq_true, beq_iff_eq] at hpre
      rcases List.mem_cons.mp hc with rfl | hc'
      · exact hpre.1 ▸ List.mem_cons_self b bs
      · exact List.mem_cons_of_mem b (ih hpre.2 hc')

theorem containsSub_mem {c : Char} {needle : List Char} :
    ∀ {hay : List Char}, containsSub needle hay = true → c ∈ needle → c ∈ hay := by
  intro hay
  induction hay with
  | nil =>
    intro h hc
    simp only [containsSub, List.isEmpty_iff] at h
    exact absurd (h ▸ hc) (List.not_mem_nil c)
  | cons d rest ih =>
    intro h hc
    rcases Bool.or_eq_true_iff.mp h with h1 | h2
    · exact isPrefixOf_mem h1 hc
    · exact List.mem_cons_of_mem d (ih h2 hc)

theorem dropWhile_self_idem (p : Char → Bool) (l : List Char) :
    (l.dropWhile p).dropWhile p = l.dropWhile p := by
  induction l with
  | nil => rfl
  | cons a t ih =>
    by_cases h : p a = true
    · simp [List.dropWhile_cons, h, ih]
    · simp [List.dropWhile_cons, h]

theorem dropWhile_head_cases (p : Char → Bool) (l : List Char) :
    l.dropWhile p = [] ∨ ∃ a t, l.dropWhile p = a :: t ∧ p a = false := by
  induction l with
  | nil => exact Or.inl rfl
  | cons a t ih =>
    by_cases h : p a = true
    · simpa [List.dropWhile_cons, h] using ih
    · exact Or.inr ⟨a, t, by simp [List.dropWhile_cons, h],
        Bool.eq_false_iff.mpr h⟩

theorem dropWhile_append_last {p : Char → Bool} {a : Char} (ha : p a = false) :
    ∀ x : List Char, (x ++ [a]).dropWhile p = x.dropWhile p ++ [a] := by
  intro x
  induction x with
  | nil => simp [List.dropWhile_cons, ha]
  | cons b y ih =>
    by_cases hb : p b = true
    · simp [List.dropWhile_cons, hb, ih]
    · simp [List.dropWhile_cons, hb]

theorem pyStripList_idem (l : List Char) :
    pyStripList (pyStripList l) = pyStripList l := by
  rcases dropWhile_head_cases pyIsSpaceB l with hA | ⟨a, t, hA, ha⟩
  · simp [pyStripList, hA]
  · have hB : (l.dropWhile pyIsSpaceB).reverse.dropWhile pyIsSpaceB
        = t.reverse.dropWhile pyIsSpaceB ++ [a] := by
      rw [hA, List.reverse_cons, dropWhile_append_last ha]
    have hR : pyStripList l = a :: (t.reverse.dropWhile pyIsSpaceB).reverse := by
      unfold pyStripList
      rw [hB, List.reverse_append]
      rfl
    rw [hR]
    have hfront : (a :: (t.reverse.dropWhile pyIsSpaceB).reverse).dropWhile pyIsSpaceB
        = a :: (t.reverse.dropWhile pyIsSpaceB).reverse := by
      simp [List.dropWhile_cons, ha]
    unfold pyStripList
    rw [hfront, List.reverse_cons, dropWhile_append_last ha, List.reverse_reverse,
      dropWhile_self_idem]
    simp [List.reverse_append]

theorem stringMkToList (s : String) : String.mk s.toList = s := rfl

theorem shlexSafe_spec {c : Char} (h : shlexSafeB c = true) :
    shlexWhitespaceB c = false ∧ (c == bslashChar) = false
    ∧ (c == squoteChar) = false ∧ (c == dquoteChar) = false := by
  simp only [shlexSafeB, Bool.and_eq_true, Bool.not_eq_true', bne_iff_ne] at h
  refine ⟨?_, ?_, ?_, ?_⟩ <;> simp_all [beq_eq_false_iff_ne]

/-- Splitting the fixed command-line prefix `"/usr/bin/powerprofilesctl set "`
leaves the splitter in the between-tokens state with the two tokens emitted
and the profile name still to be read. -/
theorem shlexSplit_setCmdLine_step (name : String) :
    shlexSplit (setCmdLine name)
      = shlexGo ["/usr/bin/powerprofilesctl", "set"] ShlexState.norm [] false name.toList := rfl

/-- In the middle of a token, a run of shlex-safe characters is consumed
verbatim and ends the final token. -/
theorem shlexGo_safe_run : ∀ (cs : List Char) (toks : List String) (acc : List Char),
    (∀ c ∈ cs, shlexSafeB c = true) →
    shlexGo toks .norm acc true cs = some (toks ++ [String.mk (acc.reverse ++ cs)]) := by
  intro cs
  induction cs with
  | nil => intro toks acc _; simp [shlexGo]
  | cons c cs ih =>
    intro toks acc h
    have hspec := shlexSafe_spec (h c (List.mem_cons_self c cs))
    have hrest : ∀ x ∈ cs, shlexSafeB x = true :=
      fun x hx => h x (List.mem_cons_of_mem c hx)
    simp only [shlexGo, hspec.1, hspec.2.1, hspec.2.2.1, hspec.2.2.2,
      Bool.false_eq_true, if_false]
    rw [ih _ _ hrest]
    simp

/-- Between tokens, a non-empty run of shlex-safe characters becomes exactly
one further token. -/
theorem shlexGo_safe_start (cs : List Char) (toks : List String)
    (hne : cs ≠ []) (h : ∀ c ∈ cs, shlexSafeB c = true) :
    shlexGo toks .norm [] false cs = some (toks ++ [String.mk cs]) := by
  cases cs with
  | nil => exact absurd rfl hne
  | cons c cs =>
    have hspec := shlexSafe_spec (h c (List.mem_cons_self c cs))
    have hrest : ∀ x ∈ cs, shlexSafeB x = true :=
      fun x hx => h x (List.mem_cons_of_mem c hx)
    simp only [shlexGo, hspec.1, hspec.2.1, hspec.2.2.1, hspec.2.2.2,
      Bool.false_eq_true, if_false]
    rw [shlexGo_safe_run cs toks [c] hrest]
    simp

/-! ## Claim theorems -/

/-- C1 (counterexample): a poll tick in which the `get` command times out
(command failure, empty output) does NOT leave the state unchanged: with the
stored active profile `"balanced"` (and stored theme `"dark"` while the OS
reports light, so the theme branch is not taken), `on_timer` overwrites the
stored profile with the empty string and emits a `SetIcon` event — the claim
that a failed poll leaves state untouched and emits nothing is false. -/
theorem C1_counterexample :
    on_timer false ProcOutcome.timeout
        { systemTheme := "dark", themeForce := false, currentProfile := "balanced" }
      = ({ systemTheme := "dark", themeForce := false, currentProfile := "" },
         [Event.setIcon "Active Profile: "]) := rfl

/-- C1 (amended): `update_icon` never consults the command's error code.  A
timed-out `get` yields the empty profile: the theme fields are untouched, but
the stored active profile is overwritten with the empty string, and no event
is emitted exactly when the stored profile was already empty (otherwise a
`SetIcon` event fires).  A non-zero exit is treated identically to a
successful exit with the same stdout. -/
theorem C1_amended (st : AppState) :
    ((update_icon ProcOutcome.timeout st).1.currentProfile = ""
      ∧ (update_icon ProcOutcome.timeout st).1.systemTheme = st.systemTheme
      ∧ (update_icon ProcOutcome.timeout st).1.themeForce = st.themeForce
      ∧ ((update_icon ProcOutcome.timeout st).2 = [] ↔ st.currentProfile = ""))
    ∧ ∀ rc stdout,
        update_icon (ProcOutcome.completed rc stdout) st
          = update_icon (ProcOutcome.completed 0 stdout) st := by
  constructor
  · by_cases h : ("" : String) = st.currentProfile
    · simp [update_icon, get_active_profile, parserRun, h]
    · simp [update_icon, get_active_profile, parserRun, h, Ne.symm h]
  · intro rc stdout
    rfl

/-- C2 (code evaluation at the failing input): with stored theme `"light"`,
theme not forced, and the active profile unchanged, a tick on which the OS
reports dark (a real theme change) performs NO theme update — the stored
theme stays `"light"` and no icon reload happens — while a tick on which the
OS still reports light (no change) DOES reload the icons.
`os_theme_style_changed` returns stored == current, the inverse of its name,
so the theme-changed update fires exactly when the theme did not change. -/
theorem C2_code_eval :
    (on_timer true (ProcOutcome.completed 0 "balanced")
        { systemTheme := "light", themeForce := false, currentProfile := "balanced" }
      = ({ systemTheme := "light", themeForce := false, currentProfile := "balanced" }, []))
    ∧ (on_timer false (ProcOutcome.completed 0 "balanced")
        { systemTheme := "light", themeForce := false, currentProfile := "balanced" }
      = ({ systemTheme := "light", themeForce := false, currentProfile := "balanced" },
         [Event.iconsReloaded])) :=
  ⟨rfl, rfl⟩

/-- C3 (counterexample): a `get` invocation whose process exits non-zero but
still prints a line does NOT return the empty profile: on exit code 1 with
stdout `"oops"` the command failed (`errorCode ≠ 0`) yet the returned profile
is `"oops"`, not `""` as the claim requires. -/
theorem C3_counterexample :
    (get_active_profile (parserRun (ProcOutcome.completed 1 "oops"))).errorCode ≠ 0
    ∧ (get_active_profile (parserRun (ProcOutcome.completed 1 "oops"))).profile = "oops" := by
  refine ⟨by decide, by decide⟩

/-- C3 (amended): `getActiveProfile` returns the first non-empty (trimmed)
output line regardless of the reported exit status; the profile is empty
exactly when no non-empty line exists.  A timeout clears the output, so a
timed-out call does return the empty profile; a non-zero exit that produced
output does not.  On stdout `"\n  balanced  \npower-saver"` (lines `""`,
`"  balanced  "`, `"power-saver"`) it yields `"balanced"`. -/
theorem C3_amended :
    (∀ rc : Int, ∀ stdout : String,
        (get_active_profile (parserRun (ProcOutcome.completed rc stdout))).profile
          = (((pySplitlines stdout).map pyStrip).find? (fun l => l != "")).getD "")
    ∧ (get_active_profile (parserRun ProcOutcome.timeout)).profile = ""
    ∧ (get_active_profile
        (parserRun (ProcOutcome.completed 0 "\n  balanced  \npower-saver"))).profile
        = "balanced" := by
  refine ⟨fun rc stdout => rfl, rfl, by decide⟩

/-- C6: the command bridge `parser`, on timeout, reports failure
(`error.code` ≠ 0) with empty output; on normal completion it reports success
iff the process exit code is 0, and its output is each line of the captured
stdout with surrounding whitespace stripped, in order, blank lines included
(concretely: stdout `"  a  \n\nlast"` parses to `["a", "", "last"]`). -/
theorem C6_parser_contract :
    (∀ rc : Int, ∀ stdout : String,
        (parserRun (ProcOutcome.completed rc stdout)).output
          = (pySplitlines stdout).map pyStrip
        ∧ ((parserRun (ProcOutcome.completed rc stdout)).errorCode = 0 ↔ rc = 0))
    ∧ (parserRun ProcOutcome.timeout).errorCode ≠ 0
    ∧ (parserRun ProcOutcome.timeout).output = []
    ∧ (parserRun (ProcOutcome.completed 0 "  a  \n\nlast")).output = ["a", "", "last"] := by
  refine ⟨fun rc stdout => ⟨rfl, Iff.rfl⟩, by decide, rfl, by decide⟩

/-- C8: with the forced flag set, a poll tick never overwrites the stored
theme from the OS appearance query (`set_theme_style` writes only when
`system.theme.force` is false), whatever the OS reports and whatever the
`get` command returns. -/
theorem C8_forced_theme (osIsDark : Bool) (outc : ProcOutcome) (st : AppState)
    (h : st.themeForce = true) :
    (on_timer osIsDark outc st).1.systemTheme = st.systemTheme
    ∧ (on_timer osIsDark outc st).1.themeForce = st.themeForce := by
  unfold on_timer set_theme_style update_icon
  simp only [h, Bool.not_true, Bool.false_eq_true, if_false]
  split <;> split <;> simp [h]

/-- C4 (counterexample): the cleaning step does not remove only the
current-profile asterisk, the trailing colon and surrounding whitespace: on
`"power:saver"` — which carries none of those decorations — the code deletes
the interior colon and yields `"powersaver"`, while the claim's cleaning
(`specCleanLine`) leaves the line unchanged. -/
theorem C4_counterexample :
    cleanLine "power:saver" = "powersaver"
    ∧ specCleanLine "power:saver" = "power:saver"
    ∧ cleanLine "power:saver" ≠ specCleanLine "power:saver" :=
  ⟨rfl, rfl, by decide⟩

/-- C4 (amended): the cleaning step removes every asterisk and every colon
wherever they occur in the line (not only a current-marker asterisk and a
trailing colon) plus surrounding whitespace; the remaining characters are
left unchanged and in order (the result is a sublist of the line containing
no `*` and no `:`). -/
theorem C4_amended (line : String) :
    (cleanLine line).toList
      = pyStripList ((line.toList.filter (fun c => c != '*')).filter (fun c => c != ':'))
    ∧ List.Sublist (cleanLine line).toList line.toList
    ∧ ∀ c ∈ (cleanLine line).toList, c ≠ '*' ∧ c ≠ ':' := by
  refine ⟨rfl, ?_, fun c hc => mem_cleanLine_ne hc⟩
  rw [cleanLine_toList]
  exact (pyStripList_sublist _).trans
    ((List.filter_sublist _).trans (List.filter_sublist _))

/-- C4 (amended, witness): on `"  *balanced:  "` the survivor character `'b'`
is neither `*` nor `:`. -/
theorem C4_amended_witness :
    ('b' ∈ (cleanLine "  *balanced:  ").toList) ∧ ('b' ≠ '*' ∧ 'b' ≠ ':') :=
  ⟨by decide, (C4_amended "  *balanced:  ").2.2 'b' (by decide)⟩

/-- C5: a line containing any of the exclusion markers never appears in the
resulting profile list (every produced entry is colon-free while every marker
carries a colon), and on the list output `["performance", "*balanced:",
"power-saver", "CpuDriver: intel_pstate"]` the resulting ProfileSet is
`["performance", "balanced", "power-saver"]`, cleaned and in order. -/
theorem C5_marker_lines_excluded :
    (∀ parsed : CmdResult, ∀ line : String,
        excludedLines.any (fun x => strContains line x) = true →
        line ∉ (get_profiles parsed).profiles)
    ∧ (get_profiles (parserRun (ProcOutcome.completed 0
        "performance\n*balanced:\npower-saver\nCpuDriver: intel_pstate"))).profiles
      = ["performance", "balanced", "power-saver"] := by
  constructor
  · intro parsed line hany hmem
    have hcolon : (':' : Char) ∈ line.toList := by
      rcases List.any_eq_true.mp hany with ⟨x, hx, hc⟩
      simp only [excludedLines, List.mem_cons, List.not_mem_nil, or_false] at hx
      rcases hx with rfl | rfl | rfl
      · exact containsSub_mem hc (by decide)
      · exact containsSub_mem hc (by decide)
      · exact containsSub_mem hc (by decide)
    rcases List.mem_map.mp hmem with ⟨l0, _, heq⟩
    have h' : (':' : Char) ∈ (cleanLine l0).toList := by rw [heq]; exact hcolon
    exact (mem_cleanLine_ne h').2 rfl
  · decide

/-- C5 (witness): the marker-bearing line `"CpuDriver: intel_pstate"` is
absent from the profiles produced from an output containing it. -/
theorem C5_marker_lines_excluded_witness :
    "CpuDriver: intel_pstate"
      ∉ (get_profiles { errorCode := 0, output := ["CpuDriver: intel_pstate"] }).profiles :=
  C5_marker_lines_excluded.1 _ _ (by decide)

/-- C7 (counterexample): the profile list can contain an empty entry: the
list output `"*"` is a non-empty raw line with no marker, so it survives the
filter, cleans to the empty string, and the empty string is included. -/
theorem C7_counterexample :
    (get_profiles (parserRun (ProcOutcome.completed 0 "*"))).profiles = [""]
    ∧ "" ∈ (get_profiles (parserRun (ProcOutcome.completed 0 "*"))).profiles :=
  ⟨by decide, by decide⟩

/-- C7 (amended): raw empty lines are dropped — every entry of the profile
list is the cleaning of some non-empty surviving line of the output — but
the emptiness test precedes cleaning, so a surviving line made only of
decoration characters (e.g. `"*"`) cleans to the empty string, which is
included as an entry. -/
theorem C7_amended :
    (∀ parsed : CmdResult, ∀ p ∈ (get_profiles parsed).profiles,
        ∃ line, line ∈ parsed.output ∧ line ≠ "" ∧ cleanLine line = p)
    ∧ (get_profiles (parserRun (ProcOutcome.completed 0 "*"))).profiles = [""] := by
  constructor
  · intro parsed p hp
    rcases List.mem_map.mp hp with ⟨l0, hl0, heq⟩
    have hf := List.mem_filter.mp hl0
    have hne : l0 ≠ "" := by
      have h1 := (Bool.and_eq_true _ _).mp hf.2
      simpa using h1.1
    exact ⟨l0, hf.1, hne, heq⟩
  · decide

/-- C7 (amended, witness): the entry `"performance"` arises from the
non-empty output line `"performance"`. -/
theorem C7_amended_witness :
    ("performance" ∈ (get_profiles { errorCode := 0, output := ["performance"] }).profiles)
    ∧ ∃ line, line ∈ ({ errorCode := 0, output := ["performance"] } : CmdResult).output
        ∧ line ≠ "" ∧ cleanLine line = "performance" :=
  ⟨by decide, C7_amended.1 _ "performance" (by decide)⟩

/-- C9 (counterexample): `set_profile` interpolates the profile name into a
command string and then shell-word-splits the whole string, so a name
containing whitespace is re-split: `"power saver"` reaches the exec vector
as the two arguments `"power"` and `"saver"`, not as a single trailing
argument. -/
theorem C9_counterexample :
    shlexSplit (setCmdLine "power saver")
      = some ["/usr/bin/powerprofilesctl", "set", "power", "saver"]
    ∧ (["/usr/bin/powerprofilesctl", "set", "power", "saver"] : List String)
      ≠ ["/usr/bin/powerprofilesctl", "set", "power saver"] :=
  ⟨by decide, by decide⟩

/-- C9 (amended): the set command line is built by string interpolation and
then shell-word-split, so the name reaches the exec vector as a single
trailing argument only when it contains no shlex-special character
(whitespace, backslash, quotes) and is non-empty; for such a name the exec
vector is exactly `['/usr/bin/powerprofilesctl', 'set', name]` and
`set_profile` returns true iff the command's exit code is 0. -/
theorem C9_amended (exec : List String → ProcOutcome) (name : String)
    (h1 : name ≠ "") (h2 : ∀ c ∈ name.toList, shlexSafeB c = true) :
    set_profile exec name
      = some ((parserRun (exec ["/usr/bin/powerprofilesctl", "set", name])).errorCode == 0) := by
  have hne : name.toList ≠ [] := by
    intro hn
    exact h1 (stringEqOfData (by simpa using hn))
  unfold set_profile parserFull
  rw [shlexSplit_setCmdLine_step name, shlexGo_safe_start name.toList _ hne h2]
  simp [stringMkToList]

/-- C9 (amended, witness): setting the safe name `"balanced"` against an
external tool that exits 0 returns true. -/
theorem C9_amended_witness :
    ("balanced" : String) ≠ ""
    ∧ (∀ c ∈ ("balanced" : String).toList, shlexSafeB c = true)
    ∧ set_profile (fun _ => ProcOutcome.completed 0 "") "balanced" = some true :=
  ⟨by decide, by decide,
    C9_amended (fun _ => ProcOutcome.completed 0 "") "balanced" (by decide) (by decide)⟩

/-- C10: the profile-cleaning step is idempotent — applying `cleanLine` to
anything it has already produced returns it unchanged (an already-clean name
has no asterisk, no colon and no surrounding whitespace left to strip). -/
theorem C10_clean_idempotent (s : String) :
    cleanLine (cleanLine s) = cleanLine s := by
  apply stringEqOfData
  have h1 : ∀ a ∈ (cleanLine s).toList, (a != '*') = true :=
    fun a ha => by simpa using (mem_cleanLine_ne ha).1
  have h2 : ∀ a ∈ (cleanLine s).toList, (a != ':') = true :=
    fun a ha => by simpa using (mem_cleanLine_ne ha).2
  rw [cleanLine_toList (cleanLine s), List.filter_eq_self.mpr h1,
    List.filter_eq_self.mpr h2, cleanLine_toList s, pyStripList_idem]

/-- C8 (witness): forced dark theme, OS reporting light — the stored theme
stays `"dark"` after the tick. -/
theorem C8_forced_theme_witness :
    ({ systemTheme := "dark", themeForce := true, currentProfile := "" } : AppState).themeForce
      = true
    ∧ (on_timer false (ProcOutcome.completed 0 "balanced")
        { systemTheme := "dark", themeForce := true, currentProfile := "" }).1.systemTheme
      = "dark" :=
  ⟨rfl, (C8_forced_theme false (ProcOutcome.completed 0 "balanced")
      { systemTheme := "dark", themeForce := true, currentProfile := "" } rfl).1⟩

end PProfiler
